import Mathlib

/- Shallow embedding of brinkman-nft-catalog.

   Sources embedded:
   - src/src/App.tsx: getImageUrl (lines 237-382), ImageWithFallback /
     handleError (lines 385-442), the sort comparator (lines 194-228),
     fetchOpenSeaPrice (lines 489-553), fetchAllPrices (lines 556-592);
   - src/unnamed/part_002 lines 178-195: the randomized-gateway variant of
     getImageUrl;
   - src/unnamed/part_006: the Express proxy endpoints for price, events and
     collection events.

   Network I/O is modelled by oracles: a pure function from each request the
   code can issue to the outcome the environment would give it.  An outcome
   distinguishes a successful response (response.ok), an HTTP-level failure
   (response received, response.ok false) and a thrown fault (network error,
   abort timeout, JSON parse failure).  Each operation returns, next to its
   result, the ordered trace of requests it issued, so that claims about
   which sources are probed, in which order, and how often, are statable. -/

namespace Catalog

/-- JS String.prototype.trim: drop whitespace from both ends. -/
def jsTrim (s : String) : String :=
  ⟨((s.data.dropWhile Char.isWhitespace).reverse.dropWhile Char.isWhitespace).reverse⟩

/-- The regex replace /\/+$/ -> empty: drop every trailing slash. -/
def remTrailingSlashes (s : String) : String :=
  ⟨(s.data.reverse.dropWhile (fun c => c == '/')).reverse⟩

/-- JS String.prototype.replace with a string pattern replaces only the FIRST
occurrence of the pattern (list-of-chars worker). -/
def replaceFirstL (pat : List Char) : List Char → List Char
  | [] => []
  | c :: cs =>
    if pat.isPrefixOf (c :: cs) then List.drop pat.length (c :: cs)
    else c :: replaceFirstL pat cs

/-- JS String.prototype.replace with a string pattern (first occurrence only). -/
def replaceFirst (pat s : String) : String :=
  ⟨replaceFirstL pat.data s.data⟩

/-- JS String.prototype.endsWith. -/
def strEndsWith (s suffix : String) : Bool :=
  suffix.data.isSuffixOf s.data

/-- JS String.prototype.includes. -/
def strContains (s pat : String) : Bool :=
  s.data.tails.any (fun t => pat.data.isPrefixOf t)

/-- One parsed CSV row (interface NFT in src/src/App.tsx).  Field names follow
the CSV column keys the code reads: artworkTitle = nft['Artwork Title'],
nftType = nft['Type'], imageLink = nft['Image link'], contractHash =
nft['Contract Hash'], tokenIdStart = nft['TokenID Start'], ipfsImage =
nft['IPFS Image'], link = nft['Link'], mintDate = nft['Mint Date'],
edtSize = nft['Edt Size'].  A missing CSV cell is the empty string, which is
exactly the falsy case of the JS truthiness tests the code performs. -/
structure NFT where
  artworkTitle : String
  nftType : String
  imageLink : String
  contractHash : String
  tokenIdStart : String
  ipfsImage : String
  link : String
  mintDate : String
  edtSize : String
deriving DecidableEq

/-- Outcome of one fetch as the code can observe it: a successful response
(response.ok), a received non-success response (response.ok false), or a
thrown fault (network error, abort timeout, body-parse failure). -/
inductive FetchOutcome where
  | ok : FetchOutcome
  | httpError : FetchOutcome
  | netError : FetchOutcome
deriving DecidableEq

/-- One network request getImageUrl can issue: a HEAD probe of the direct
image link, the OpenSea metadata request for contract/token, a HEAD probe of
a gateway URL, or a HEAD probe of the external Link field. -/
inductive Probe where
  | headDirect (url : String)
  | osMeta (contractAddress tokenId : String)
  | ipfsGw (url : String)
  | headLink (url : String)
deriving DecidableEq

/-- The network environment for image resolution.  probe gives the outcome of
each request; osImage gives the truthy data.nft.image_url field of the OpenSea
metadata JSON when the response carried one (consulted only after an ok
outcome of the matching osMeta probe). -/
structure NetOracle where
  probe : Probe → FetchOutcome
  osImage : String → String → Option String

/-- Chain two resolution stages: keep the first stage's answer if it found a
URL, otherwise run the second stage and concatenate the request traces. -/
def andThen (a b : Option String × List Probe) : Option String × List Probe :=
  match a with
  | (some u, t) => (some u, t)
  | (none, t) => (b.1, t ++ b.2)

/-- App.tsx lines 238-253: try the direct image link first.  For the record
titled Machine the link is returned with no probe at all; otherwise a HEAD
request is sent and the link is used only when it answers ok (a thrown error
and a non-ok response both fall through). -/
def stageDirect (o : NetOracle) (nft : NFT) : Option String × List Probe :=
  if nft.imageLink ≠ "" then
    if nft.artworkTitle = "Machine" then (some nft.imageLink, [])
    else
      match o.probe (.headDirect nft.imageLink) with
      | .ok => (some nft.imageLink, [.headDirect nft.imageLink])
      | _ => (none, [.headDirect nft.imageLink])
  else (none, [])

/-- App.tsx lines 255-282: the OpenSea metadata source, attempted only when
contract hash and token id are both non-empty; used only when the response is
ok and carries a truthy image_url. -/
def stageOsMeta (o : NetOracle) (nft : NFT) : Option String × List Probe :=
  if nft.contractHash ≠ "" ∧ nft.tokenIdStart ≠ "" then
    match o.probe (.osMeta nft.contractHash nft.tokenIdStart) with
    | .ok =>
      match o.osImage nft.contractHash nft.tokenIdStart with
      | some u => (some u, [.osMeta nft.contractHash nft.tokenIdStart])
      | none => (none, [.osMeta nft.contractHash nft.tokenIdStart])
    | _ => (none, [.osMeta nft.contractHash nft.tokenIdStart])
  else (none, [])

/-- App.tsx lines 291-298: the fixed gateway list, in source order. -/
def gateways : List String :=
  ["https://nftstorage.link/ipfs/",
   "https://ipfs.io/ipfs/",
   "https://gateway.pinata.cloud/ipfs/",
   "https://dweb.link/ipfs/",
   "https://gateway.ipfs.io/ipfs/",
   "https://cloudflare-ipfs.com/ipfs/"]

/-- App.tsx lines 287-289: trim the reference, remove the first occurrence of
ipfs:// (JS string replace) and every trailing slash (regex replace). -/
def cleanIpfsHash (s : String) : String :=
  remTrailingSlashes (replaceFirst "ipfs://" (jsTrim s))

/-- App.tsx lines 300-327: HEAD-probe gateway ++ hash for each gateway in
order, returning the first URL whose probe answers ok; a timeout (abort), a
thrown error and a non-ok response all advance to the next gateway. -/
def tryGateways (o : NetOracle) (hash : String) : List String → Option String × List Probe
  | [] => (none, [])
  | g :: rest =>
    match o.probe (.ipfsGw (g ++ hash)) with
    | .ok => (some (g ++ hash), [.ipfsGw (g ++ hash)])
    | _ =>
      let r := tryGateways o hash rest
      (r.1, .ipfsGw (g ++ hash) :: r.2)

/-- App.tsx lines 284-331: the IPFS source, attempted when the reference field
is non-empty. -/
def stageIpfs (o : NetOracle) (nft : NFT) : Option String × List Probe :=
  if nft.ipfsImage ≠ "" then tryGateways o (cleanIpfsHash nft.ipfsImage) gateways
  else (none, [])

/-- App.tsx lines 333-378: the external-link source, attempted when Link is
non-empty and ends with a raster-image extension.  A link into
opensea.io/assets is never fetched directly: instead the OpenSea metadata
request is issued again (when contract/token are present).  Other links get a
HEAD probe and are used when it answers ok. -/
def stageLink (o : NetOracle) (nft : NFT) : Option String × List Probe :=
  if nft.link ≠ "" ∧ (strEndsWith nft.link ".jpg" ∨ strEndsWith nft.link ".jpeg" ∨
      strEndsWith nft.link ".png" ∨ strEndsWith nft.link ".gif") then
    if strContains nft.link "opensea.io/assets" then
      if nft.contractHash ≠ "" ∧ nft.tokenIdStart ≠ "" then
        match o.probe (.osMeta nft.contractHash nft.tokenIdStart) with
        | .ok =>
          match o.osImage nft.contractHash nft.tokenIdStart with
          | some u => (some u, [.osMeta nft.contractHash nft.tokenIdStart])
          | none => (none, [.osMeta nft.contractHash nft.tokenIdStart])
        | _ => (none, [.osMeta nft.contractHash nft.tokenIdStart])
      else (none, [])
    else
      match o.probe (.headLink nft.link) with
      | .ok => (some nft.link, [.headLink nft.link])
      | _ => (none, [.headLink nft.link])
  else (none, [])

/-- App.tsx line 381: the sentinel returned when every source is exhausted. -/
def noImagePlaceholder : String := "https://via.placeholder.com/300x300?text=No+Image"

/-- App.tsx lines 237-382 (getImageUrl): run the four candidate sources in
priority order, return the first URL found together with the ordered trace of
network requests issued, falling back to the placeholder sentinel. -/
def getImageUrl (o : NetOracle) (nft : NFT) : String × List Probe :=
  let r := andThen (andThen (andThen (stageDirect o nft) (stageOsMeta o nft))
    (stageIpfs o nft)) (stageLink o nft)
  (r.1.getD noImagePlaceholder, r.2)

/-- part_002 lines 181-187: the gateway list of the randomized variant. -/
def gatewaysV2 : List String :=
  ["https://ipfs.io/ipfs/",
   "https://cloudflare-ipfs.com/ipfs/",
   "https://gateway.pinata.cloud/ipfs/",
   "https://dweb.link/ipfs/",
   "https://gateway.ipfs.io/ipfs/"]

/-- part_002 lines 179-192: the randomized variant picks one random gateway
(index Math.floor(Math.random() * gateways.length), modelled by rand modulo
the list length) and returns gateway ++ trimmed reference without probing. -/
def ipfsRandomUrl (rand : Nat) (ipfsRef : String) : String :=
  gatewaysV2.getD (rand % gatewaysV2.length) "" ++ jsTrim ipfsRef

/-- App.tsx line 386: the initial src of ImageWithFallback. -/
def loadingPlaceholder : String := "https://via.placeholder.com/300x300?text=Loading..."

/-- App.tsx lines 426/430: the terminal src committed by handleError. -/
def unavailablePlaceholder : String := "https://via.placeholder.com/300x300?text=Image+Not+Available"

/-- App.tsx line 388. -/
def maxRetries : Nat := 3

/-- The per-record state of ImageWithFallback: the current img src and the
error counter. -/
structure ImgState where
  currentSrc : String
  errorCount : Nat
deriving DecidableEq

/-- App.tsx lines 393-415 (the mount effect): resolve once and store the
resulting URL. -/
def loadImage (o : NetOracle) (nft : NFT) (s : ImgState) : ImgState :=
  ⟨(getImageUrl o nft).1, s.errorCount⟩

/-- App.tsx lines 417-432 (handleError): on a render-failure signal, while
errorCount < maxRetries the counter is incremented and getImageUrl is invoked
again for a fresh URL; otherwise the terminal placeholder is committed.  The
returned Bool records whether this signal invoked getImageUrl. -/
def handleError (o : NetOracle) (nft : NFT) (s : ImgState) : ImgState × Bool :=
  if s.errorCount < maxRetries then
    (⟨(getImageUrl o nft).1, s.errorCount + 1⟩, true)
  else
    (⟨unavailablePlaceholder, s.errorCount⟩, false)

/-- State of ImageWithFallback after the mount-time load and n render-failure
signals, paired with how many getImageUrl calls the failure signals made. -/
def runFailures (o : NetOracle) (nft : NFT) : Nat → ImgState × Nat
  | 0 => (loadImage o nft ⟨loadingPlaceholder, 0⟩, 0)
  | n + 1 =>
    let r := runFailures o nft n
    let h := handleError o nft r.1
    (h.1, r.2 + (if h.2 then 1 else 0))

/-- The sort direction held in the sortOrder state of App.tsx. -/
inductive SortOrder where
  | asc : SortOrder
  | desc : SortOrder
deriving DecidableEq

/-- App.tsx lines 210-215: the Mint Date branch of the sort comparator.
new Date(v).getTime() yields a timestamp, or NaN for an unparseable value;
Date parsing is a host-environment function, so it enters the model as the
parse argument (none standing for NaN).  When either operand is NaN the
subtraction aDate - bDate is NaN, and ECMAScript SortCompare maps a NaN
comparator value to +0, so those comparisons land in the 0 case. -/
def mintDateCompare (parse : String → Option Int) (ord : SortOrder) (a b : String) : Int :=
  match parse a, parse b with
  | some x, some y => match ord with | .asc => x - y | .desc => y - x
  | _, _ => 0

/-- Digit value of a character in base 16, none for a non-digit. -/
def hexDigitVal (c : Char) : Option Nat :=
  if c.isDigit then some (c.toNat - 48)
  else if 'a' ≤ c ∧ c ≤ 'f' then some (c.toNat - 87)
  else if 'A' ≤ c ∧ c ≤ 'F' then some (c.toNat - 55)
  else none

/-- Digit value of a character in base 10, none for a non-digit. -/
def decDigitVal (c : Char) : Option Nat :=
  if c.isDigit then some (c.toNat - 48) else none

/-- Value of the longest leading digit run, none when it is empty. -/
def digitRunVal (digitVal : Char → Option Nat) (base : Nat) (cs : List Char) : Option Nat :=
  let ds := cs.takeWhile (fun c => (digitVal c).isSome)
  if ds = [] then none
  else some (ds.foldl (fun acc c => acc * base + (digitVal c).getD 0) 0)

/-- JS parseInt with no radix argument: trim whitespace, read an optional
sign, switch to base 16 after a 0x or 0X prefix, then take the longest run of
digits; none stands for NaN (no digits at all). -/
def parseIntJS (s : String) : Option Int :=
  let t0 := (jsTrim s).data
  let sgn : Int := match t0 with | '-' :: _ => -1 | _ => 1
  let t1 := match t0 with | '-' :: r => r | '+' :: r => r | r => r
  match t1 with
  | '0' :: 'x' :: r => (digitRunVal hexDigitVal 16 r).map (fun n => sgn * n)
  | '0' :: 'X' :: r => (digitRunVal hexDigitVal 16 r).map (fun n => sgn * n)
  | r => (digitRunVal decDigitVal 10 r).map (fun n => sgn * n)

/-- App.tsx lines 219-220: parseInt(value) || 0, i.e. NaN collapses to 0 (and
a parsed 0, being falsy, also yields 0). -/
def edtSizeNum (s : String) : Int :=
  (parseIntJS s).getD 0

/-- App.tsx lines 217-222: the Edt Size branch of the sort comparator. -/
def edtSizeCompare (ord : SortOrder) (a b : String) : Int :=
  match ord with
  | .asc => edtSizeNum a - edtSizeNum b
  | .desc => edtSizeNum b - edtSizeNum a

/-- App.tsx lines 224-227: the default string branch of the comparator
(JS relational operators on strings are lexicographic). -/
def stringCompare (ord : SortOrder) (a b : String) : Int :=
  if a < b then match ord with | .asc => -1 | .desc => 1
  else if b < a then match ord with | .asc => 1 | .desc => -1
  else 0

/-- The sort fields exercised by the comparator branches under claim: the
Mint Date branch, the Edt Size branch, and the default string branch applied
to a column getter.  (The Price branch, lines 199-208, reads the separate
component prices state and is touched by no claim.) -/
inductive SortField where
  | mintDate : SortField
  | edtSize : SortField
  | strField (get : NFT → String) : SortField

/-- App.tsx lines 194-228: the comparator built from the active sort field and
direction (a[sortField] || '' is total here because absent CSV cells are
already the empty string). -/
def catalogCompare (parse : String → Option Int) (field : SortField)
    (ord : SortOrder) (a b : NFT) : Int :=
  match field with
  | .mintDate => mintDateCompare parse ord a.mintDate b.mintDate
  | .edtSize => edtSizeCompare ord a.edtSize b.edtSize
  | .strField get => stringCompare ord (get a) (get b)

/-- One request fetchOpenSeaPrice can issue: the token-specific Alchemy
getNFTMetadata call (contract and token id) or the collection-level
getFloorPrice call (contract only). -/
inductive PriceCall where
  | metadata (contractAddress tokenId : String)
  | floor (contractAddress : String)
deriving DecidableEq

/-- Network environment for price fetching.  metaFloorPrice / floorPrice give
the truthy data.openSea.floorPrice of the respective JSON rendered as the
template string inserts it, when present. -/
structure PriceOracle where
  metaOutcome : String → String → FetchOutcome
  metaFloorPrice : String → String → Option String
  floorOutcome : String → FetchOutcome
  floorPrice : String → Option String

/-- App.tsx lines 489-553 (fetchOpenSeaPrice): for isUnique the token-specific
getNFTMetadata endpoint is queried and a present floor price is labelled
Listed; otherwise the collection getFloorPrice endpoint is queried and a
present floor price is labelled Floor.  A non-ok response returns Not Listed,
a thrown fault is caught and returns Error, and a missing price returns Not
Listed.  The trace records the call issued. -/
def fetchOpenSeaPrice (o : PriceOracle) (contractAddress tokenId : String)
    (isUnique : Bool) : String × List PriceCall :=
  if isUnique then
    match o.metaOutcome contractAddress tokenId with
    | .ok =>
      match o.metaFloorPrice contractAddress tokenId with
      | some p => (p ++ " ETH (Listed)", [.metadata contractAddress tokenId])
      | none => ("Not Listed", [.metadata contractAddress tokenId])
    | .httpError => ("Not Listed", [.metadata contractAddress tokenId])
    | .netError => ("Error", [.metadata contractAddress tokenId])
  else
    match o.floorOutcome contractAddress with
    | .ok =>
      match o.floorPrice contractAddress with
      | some p => (p ++ " ETH (Floor)", [.floor contractAddress])
      | none => ("Not Listed", [.floor contractAddress])
    | .httpError => ("Not Listed", [.floor contractAddress])
    | .netError => ("Error", [.floor contractAddress])

/-- App.tsx lines 556-592 (fetchAllPrices): walk the records in order; for
each record whose contract hash and token id are both non-empty, fetch its
price with isUnique = (Type === Unique) and record it under the key
contract-token unless the result was Error.  Returns the price entries
gathered and the ordered trace of calls issued. -/
def fetchAllPrices (o : PriceOracle) : List NFT → List (String × String) × List PriceCall
  | [] => ([], [])
  | nft :: rest =>
    let head : List (String × String) × List PriceCall :=
      if nft.contractHash ≠ "" ∧ nft.tokenIdStart ≠ "" then
        let r := fetchOpenSeaPrice o nft.contractHash nft.tokenIdStart
          (nft.nftType == "Unique")
        (if r.1 ≠ "Error" then [(nft.contractHash ++ "-" ++ nft.tokenIdStart, r.1)]
         else [], r.2)
      else ([], [])
    let tail := fetchAllPrices o rest
    (head.1 ++ tail.1, head.2 ++ tail.2)

/-- Result of one upstream fetch as a proxy handler can observe it: a
successful response whose body parses to the given JSON, a received non-ok
response whose body still parses, or a thrown fault (fetch failure or a body
that response.json() rejects). -/
inductive UpstreamResult where
  | ok (body : String)
  | httpError (status : Nat) (body : String)
  | thrown : UpstreamResult
deriving DecidableEq

/-- Body of a proxy response: the upstream JSON passed through unmodified, or
the handler's own generic error object (rendered by its message). -/
inductive RespBody where
  | upstream (json : String)
  | errorMessage (msg : String)
deriving DecidableEq

/-- An HTTP response the proxy sends to its client. -/
structure ProxyResponse where
  status : Nat
  body : RespBody
deriving DecidableEq

/-- A request the proxy sends upstream: the URL and the API key header
attached to it. -/
structure UpstreamRequest where
  url : String
  apiKey : String
deriving DecidableEq

/-- part_006 lines 12-20: the upstream request of the price endpoint, carrying
the server-held key from the environment. -/
def priceRequest (serverKey contractAddress tokenId : String) : UpstreamRequest :=
  ⟨"https://api.opensea.io/api/v1/asset/" ++ contractAddress ++ "/" ++ tokenId
    ++ "/?include_orders=true", serverKey⟩

/-- part_006 lines 9-28: the price handler parses the upstream body and sends
it back regardless of the upstream status code (response.ok is never
consulted); only a thrown fault reaches the catch block and produces the 500
with the generic error body. -/
def priceHandler (up : UpstreamResult) : ProxyResponse :=
  match up with
  | .ok body => ⟨200, .upstream body⟩
  | .httpError _ body => ⟨200, .upstream body⟩
  | .thrown => ⟨500, .errorMessage "Failed to fetch price data"⟩

/-- The optional query parameters of the events endpoints as Express parses
them: none for an absent parameter, some for a present one. -/
structure EventsQuery where
  eventType : Option String
  occurredAfter : Option String
  occurredBefore : Option String
  cursor : Option String
deriving DecidableEq

/-- JS truthiness of an optional query value: present and non-empty. -/
def isTruthy : Option String → Bool
  | some s => s ≠ ""
  | none => false

/-- params.append guarded by the if (value) tests of part_006. -/
def appendParam (ps : List (String × String)) (k : String) (v : Option String) :
    List (String × String) :=
  if isTruthy v then ps ++ [(k, v.getD "")] else ps

/-- URLSearchParams.toString over the accumulated pairs. -/
def renderQuery (ps : List (String × String)) : String :=
  String.intercalate "&" (ps.map (fun p => p.1 ++ "=" ++ p.2))

/-- part_006 lines 36-47: the URL of the per-token events endpoint. -/
def eventsUrl (contractAddress tokenId : String) (q : EventsQuery) : String :=
  let base := "https://api.opensea.io/api/v2/events/chain/ethereum/contract/"
    ++ contractAddress ++ "/nfts/" ++ tokenId
  let ps := appendParam (appendParam (appendParam (appendParam []
    "event_type" q.eventType) "occurred_after" q.occurredAfter)
    "occurred_before" q.occurredBefore) "cursor" q.cursor
  if renderQuery ps ≠ "" then base ++ "?" ++ renderQuery ps else base

/-- part_006 lines 49-54: the upstream request of the events endpoint. -/
def eventsRequest (serverKey contractAddress tokenId : String) (q : EventsQuery) :
    UpstreamRequest :=
  ⟨eventsUrl contractAddress tokenId q, serverKey⟩

/-- part_006 lines 31-66: the events handler throws on a non-ok upstream
response, so both a non-ok response and a thrown fault reach the catch block
and produce the 500 with the generic error body. -/
def eventsHandler (up : UpstreamResult) : ProxyResponse :=
  match up with
  | .ok body => ⟨200, .upstream body⟩
  | .httpError _ _ => ⟨500, .errorMessage "Failed to fetch NFT events"⟩
  | .thrown => ⟨500, .errorMessage "Failed to fetch NFT events"⟩

/-- The query parameters of the collection-events endpoint. -/
structure CollectionQuery where
  eventType : Option String
  occurredAfter : Option String
  occurredBefore : Option String
  cursor : Option String
  limit : Option String
deriving DecidableEq

/-- part_006 lines 72-86: the URL of the collection-events endpoint.  The
destructuring default gives limit the number 50 when the query parameter is
absent (appended after coercion to the string 50, and always truthy); a
present value is appended only when truthy. -/
def collectionEventsUrl (contractAddress : String) (q : CollectionQuery) : String :=
  let base := "https://api.opensea.io/api/v2/events/chain/ethereum/contract/"
    ++ contractAddress
  let ps := appendParam (appendParam (appendParam (appendParam []
    "event_type" q.eventType) "occurred_after" q.occurredAfter)
    "occurred_before" q.occurredBefore) "cursor" q.cursor
  let ps := match q.limit with
    | none => ps ++ [("limit", "50")]
    | some s => if s ≠ "" then ps ++ [("limit", s)] else ps
  if renderQuery ps ≠ "" then base ++ "?" ++ renderQuery ps else base

/-- part_006 lines 88-93: the upstream request of the collection-events
endpoint. -/
def collectionEventsRequest (serverKey contractAddress : String) (q : CollectionQuery) :
    UpstreamRequest :=
  ⟨collectionEventsUrl contractAddress q, serverKey⟩

/-- part_006 lines 69-105: the collection-events handler, same error policy as
the events handler. -/
def collectionEventsHandler (up : UpstreamResult) : ProxyResponse :=
  match up with
  | .ok body => ⟨200, .upstream body⟩
  | .httpError _ _ => ⟨500, .errorMessage "Failed to fetch collection events"⟩
  | .thrown => ⟨500, .errorMessage "Failed to fetch collection events"⟩

/-- The price endpoint end to end: build the upstream request, consult the
environment for its result, answer through the handler. -/
def priceEndpoint (serverKey contractAddress tokenId : String)
    (env : UpstreamRequest → UpstreamResult) : UpstreamRequest × ProxyResponse :=
  let req := priceRequest serverKey contractAddress tokenId
  (req, priceHandler (env req))

/-- The events endpoint end to end. -/
def eventsEndpoint (serverKey contractAddress tokenId : String) (q : EventsQuery)
    (env : UpstreamRequest → UpstreamResult) : UpstreamRequest × ProxyResponse :=
  let req := eventsRequest serverKey contractAddress tokenId q
  (req, eventsHandler (env req))

/-- The collection-events endpoint end to end. -/
def collectionEventsEndpoint (serverKey contractAddress : String) (q : CollectionQuery)
    (env : UpstreamRequest → UpstreamResult) : UpstreamRequest × ProxyResponse :=
  let req := collectionEventsRequest serverKey contractAddress q
  (req, collectionEventsHandler (env req))

/- Concrete records and environments used to instantiate the theorems. -/

/-- A record whose only populated image field is a direct link. -/
def nftDirect : NFT := ⟨"T", "Edition", "https://img/x.png", "", "", "", "", "", ""⟩

/-- The Machine record: direct link present, title exactly Machine. -/
def nftMachine : NFT := ⟨"Machine", "Unique", "https://img/m.png", "", "", "", "", "", ""⟩

/-- A record whose Link is an opensea.io/assets image URL and which carries
contract and token identifiers. -/
def nftOsLink : NFT := ⟨"A", "", "", "0xabc", "1", "", "https://opensea.io/assets/x.png", "", ""⟩

/-- The record of the end-to-end IPFS scenario: only the IPFS reference is
populated. -/
def nftIpfs : NFT := ⟨"B", "", "", "", "", "ipfs://Qm123/", "", "", ""⟩

/-- A market-addressable record of type Unique. -/
def nftUnique : NFT := ⟨"U", "Unique", "", "0xdef", "9", "", "", "", ""⟩

/-- A record with no populated fields at all. -/
def nftEmpty : NFT := ⟨"", "", "", "", "", "", "", "", ""⟩

/-- An environment in which every request gets a non-ok response. -/
def oracleFail : NetOracle := ⟨fun _ => .httpError, fun _ _ => none⟩

/-- An environment in which HEAD probes of direct links answer ok and
everything else fails. -/
def oracleDirectOk : NetOracle :=
  ⟨fun p => match p with | .headDirect _ => .ok | _ => .httpError, fun _ _ => none⟩

/-- An environment in which exactly the first configured gateway serves the
cleaned Qm123 hash. -/
def oracleFirstGw : NetOracle :=
  ⟨fun p => if p = .ipfsGw "https://nftstorage.link/ipfs/Qm123" then .ok else .httpError,
   fun _ _ => none⟩

/-- A price environment that always answers ok and carries a floor price. -/
def priceOracleOk : PriceOracle :=
  ⟨fun _ _ => .ok, fun _ _ => some "2.5", fun _ => .ok, fun _ => some "1.1"⟩

/-- A stand-in for the host Date parser: recognises one ISO date and yields
NaN (none) on everything else. -/
def sampleDateParse (s : String) : Option Int :=
  if s = "2021-03-05" then some 1614902400000 else none

/-- A proxy upstream in which every request gets a 404 whose body still
parses as JSON. -/
def upstream404 : UpstreamRequest → UpstreamResult :=
  fun _ => .httpError 404 "rate limited"

/-- A record whose mint date the Date parser rejects and whose edition size
is numeric. -/
def nftBadDate : NFT := ⟨"X", "", "", "", "", "", "", "not-a-date", "12"⟩

/-- A record with a parseable mint date and a non-numeric edition size. -/
def nftGoodDate : NFT := ⟨"Y", "", "", "", "", "", "", "2021-03-05", "abc"⟩

end Catalog

namespace Catalog

/- Helper lemmas. -/

theorem replaceFirstL_append (pat rest : List Char) (h : pat ≠ []) :
    replaceFirstL pat (pat ++ rest) = rest := by
  cases pat with
  | nil => exact absurd rfl h
  | cons p ps =>
    show replaceFirstL (p :: ps) (p :: (ps ++ rest)) = rest
    rw [replaceFirstL]
    rw [if_pos]
    · show List.drop (p :: ps).length ((p :: ps) ++ rest) = rest
      exact List.drop_left (p :: ps) rest
    · exact List.isPrefixOf_iff_prefix.mpr (List.prefix_append (p :: ps) rest)

theorem cleanIpfsHash_leading (t : String)
    (htrim : jsTrim ("ipfs://" ++ t) = "ipfs://" ++ t) :
    cleanIpfsHash ("ipfs://" ++ t) = remTrailingSlashes t := by
  unfold cleanIpfsHash replaceFirst
  rw [htrim]
  congr 1
  apply String.ext
  show replaceFirstL "ipfs://".data ("ipfs://" ++ t).data = t.data
  rw [String.data_append]
  exact replaceFirstL_append "ipfs://".data t.data (by decide)

theorem strAppend_right_cancel {a b h : String} (hyp : a ++ h = b ++ h) : a = b := by
  apply String.ext
  apply @List.append_cancel_right Char a.data h.data b.data
  rw [← String.data_append, ← String.data_append, hyp]

theorem tryGateways_all_fail (o : NetOracle) (hash : String) :
    ∀ gs : List String, (∀ g ∈ gs, o.probe (.ipfsGw (g ++ hash)) ≠ .ok) →
      tryGateways o hash gs = (none, gs.map (fun g => .ipfsGw (g ++ hash))) := by
  intro gs
  induction gs with
  | nil => intro _; rfl
  | cons g rest ih =>
    intro hfail
    have hg : o.probe (.ipfsGw (g ++ hash)) ≠ .ok := hfail g (List.mem_cons_self g rest)
    have hrest := ih (fun g' hg' => hfail g' (List.mem_cons_of_mem g hg'))
    cases hout : o.probe (.ipfsGw (g ++ hash)) with
    | ok => exact absurd hout hg
    | httpError => simp [tryGateways, hout, hrest]
    | netError => simp [tryGateways, hout, hrest]

theorem tryGateways_first_success (o : NetOracle) (hash g : String) (post : List String)
    (hg : o.probe (.ipfsGw (g ++ hash)) = .ok) :
    ∀ pre : List String, (∀ g' ∈ pre, o.probe (.ipfsGw (g' ++ hash)) ≠ .ok) →
      tryGateways o hash (pre ++ g :: post) =
        (some (g ++ hash), (pre ++ [g]).map (fun g' => .ipfsGw (g' ++ hash))) := by
  intro pre
  induction pre with
  | nil => intro _; simp [tryGateways, hg]
  | cons p ps ih =>
    intro hfail
    have hp : o.probe (.ipfsGw (p ++ hash)) ≠ .ok := hfail p (List.mem_cons_self p ps)
    have hrec := ih (fun g' hg' => hfail g' (List.mem_cons_of_mem p hg'))
    cases hout : o.probe (.ipfsGw (p ++ hash)) with
    | ok => exact absurd hout hp
    | httpError => simp [tryGateways, hout, hrec]
    | netError => simp [tryGateways, hout, hrec]

theorem tryGateways_trace_shape (o : NetOracle) (hash : String) :
    ∀ gs : List String, ∃ gs' : List String, gs' <+: gs ∧
      (tryGateways o hash gs).2 = gs'.map (fun g => .ipfsGw (g ++ hash)) := by
  intro gs
  induction gs with
  | nil => exact ⟨[], List.prefix_refl [], rfl⟩
  | cons g rest ih =>
    cases hout : o.probe (.ipfsGw (g ++ hash)) with
    | ok =>
      refine ⟨[g], ⟨rest, rfl⟩, ?_⟩
      simp [tryGateways, hout]
    | httpError =>
      obtain ⟨gs', hpre, htr⟩ := ih
      refine ⟨g :: gs', ?_, ?_⟩
      · exact (List.prefix_cons_inj g).mpr hpre
      · simp [tryGateways, hout, htr]
    | netError =>
      obtain ⟨gs', hpre, htr⟩ := ih
      refine ⟨g :: gs', ?_, ?_⟩
      · exact (List.prefix_cons_inj g).mpr hpre
      · simp [tryGateways, hout, htr]

theorem stageDirect_trace (o : NetOracle) (nft : NFT) :
    (stageDirect o nft).2 = [] ∨ (stageDirect o nft).2 = [.headDirect nft.imageLink] := by
  unfold stageDirect
  split
  · split
    · exact Or.inl rfl
    · cases o.probe (.headDirect nft.imageLink) <;> simp
  · exact Or.inl rfl

theorem stageOsMeta_trace (o : NetOracle) (nft : NFT) :
    (stageOsMeta o nft).2 = [] ∨
      (stageOsMeta o nft).2 = [.osMeta nft.contractHash nft.tokenIdStart] := by
  unfold stageOsMeta
  split
  · cases o.probe (.osMeta nft.contractHash nft.tokenIdStart) with
    | ok => cases o.osImage nft.contractHash nft.tokenIdStart <;> simp
    | httpError => simp
    | netError => simp
  · exact Or.inl rfl

theorem stageIpfs_trace (o : NetOracle) (nft : NFT) :
    ∃ gs' : List String, gs' <+: gateways ∧
      (stageIpfs o nft).2 = gs'.map (fun g => .ipfsGw (g ++ cleanIpfsHash nft.ipfsImage)) := by
  unfold stageIpfs
  split
  · exact tryGateways_trace_shape o (cleanIpfsHash nft.ipfsImage) gateways
  · exact ⟨[], List.nil_prefix, rfl⟩

theorem stageLink_trace (o : NetOracle) (nft : NFT) :
    (stageLink o nft).2 = [] ∨
      (stageLink o nft).2 = [.osMeta nft.contractHash nft.tokenIdStart] ∨
      (stageLink o nft).2 = [.headLink nft.link] := by
  unfold stageLink
  split
  · split
    · split
      · cases o.probe (.osMeta nft.contractHash nft.tokenIdStart) with
        | ok => cases o.osImage nft.contractHash nft.tokenIdStart <;> simp
        | httpError => simp
        | netError => simp
      · exact Or.inl rfl
    · cases o.probe (.headLink nft.link) <;> simp
  · exact Or.inl rfl

theorem andThen_trace (a b : Option String × List Probe) :
    (andThen a b).2 = a.2 ∨ (andThen a b).2 = a.2 ++ b.2 := by
  obtain ⟨fst, snd⟩ := a
  cases fst <;> simp [andThen]

theorem andThen_fst_none (a b : Option String × List Probe) (h : a.1 = none) :
    andThen a b = (b.1, a.2 ++ b.2) := by
  obtain ⟨fst, snd⟩ := a
  cases fst with
  | none => rfl
  | some u => simp at h

theorem andThen_fst_some (a b : Option String × List Probe) (u : String)
    (h : a.1 = some u) : andThen a b = (some u, a.2) := by
  obtain ⟨fst, snd⟩ := a
  cases fst with
  | none => simp at h
  | some v => simp at h; subst h; rfl

theorem count_andThen (a b : Option String × List Probe) (p : Probe) :
    ((andThen a b).2.count p) ≤ a.2.count p + b.2.count p := by
  rcases andThen_trace a b with h | h <;> rw [h]
  · exact Nat.le_add_right _ _
  · rw [List.count_append]

theorem getImageUrl_count_le (o : NetOracle) (nft : NFT) (p : Probe) :
    (getImageUrl o nft).2.count p ≤
      (stageDirect o nft).2.count p + (stageOsMeta o nft).2.count p
        + (stageIpfs o nft).2.count p + (stageLink o nft).2.count p := by
  show (andThen (andThen (andThen (stageDirect o nft) (stageOsMeta o nft))
    (stageIpfs o nft)) (stageLink o nft)).2.count p ≤ _
  calc (andThen (andThen (andThen (stageDirect o nft) (stageOsMeta o nft))
      (stageIpfs o nft)) (stageLink o nft)).2.count p
      ≤ (andThen (andThen (stageDirect o nft) (stageOsMeta o nft))
          (stageIpfs o nft)).2.count p + (stageLink o nft).2.count p :=
        count_andThen _ _ p
    _ ≤ ((andThen (stageDirect o nft) (stageOsMeta o nft)).2.count p
          + (stageIpfs o nft).2.count p) + (stageLink o nft).2.count p :=
        Nat.add_le_add_right (count_andThen _ _ p) _
    _ ≤ (((stageDirect o nft).2.count p + (stageOsMeta o nft).2.count p)
          + (stageIpfs o nft).2.count p) + (stageLink o nft).2.count p :=
        Nat.add_le_add_right (Nat.add_le_add_right (count_andThen _ _ p) _) _

theorem count_le_one_of_cases {t : List Probe} {x : Probe}
    (h : t = [] ∨ t = [x]) (p : Probe) : t.count p ≤ 1 := by
  rcases h with h | h <;> subst h
  · simp
  · rw [List.count_singleton]
    split <;> simp

theorem count_eq_zero_of_cases {t : List Probe} {x : Probe}
    (h : t = [] ∨ t = [x]) {p : Probe} (hne : p ≠ x) : t.count p = 0 := by
  rcases h with h | h <;> subst h
  · simp
  · rw [List.count_singleton]
    split
    · rename_i hx
      exact absurd (beq_iff_eq.mp hx).symm hne
    · rfl

theorem gatewayUrl_injective (hash : String) :
    Function.Injective (fun g => Probe.ipfsGw (g ++ hash)) := by
  intro a b hab
  simp only [Probe.ipfsGw.injEq] at hab
  exact strAppend_right_cancel hab

theorem stageIpfs_nodup (o : NetOracle) (nft : NFT) : (stageIpfs o nft).2.Nodup := by
  obtain ⟨gs', hpre, htr⟩ := stageIpfs_trace o nft
  rw [htr]
  exact List.Nodup.map (gatewayUrl_injective _)
    (List.Nodup.sublist hpre.sublist (by decide))

theorem stageIpfs_all_ipfsGw (o : NetOracle) (nft : NFT) :
    ∀ p ∈ (stageIpfs o nft).2, ∃ u, p = .ipfsGw u := by
  obtain ⟨gs', _, htr⟩ := stageIpfs_trace o nft
  rw [htr]
  intro p hp
  obtain ⟨g, _, hg⟩ := List.mem_map.mp hp
  exact ⟨g ++ cleanIpfsHash nft.ipfsImage, hg.symm⟩

theorem stageIpfs_count_le_one (o : NetOracle) (nft : NFT) (p : Probe) :
    (stageIpfs o nft).2.count p ≤ 1 :=
  List.nodup_iff_count_le_one.mp (stageIpfs_nodup o nft) p

theorem stageIpfs_count_eq_zero (o : NetOracle) (nft : NFT) {p : Probe}
    (h : ∀ u, p ≠ .ipfsGw u) : (stageIpfs o nft).2.count p = 0 := by
  rw [List.count_eq_zero]
  intro hmem
  obtain ⟨u, hu⟩ := stageIpfs_all_ipfsGw o nft p hmem
  exact h u hu

/-- The resolver issues every request at most twice, and the only request it
can issue twice is the OpenSea metadata request (once at its priority slot,
once more through the opensea.io/assets branch of the external-link source). -/
theorem getImageUrl_request_counts (o : NetOracle) (nft : NFT) :
    (∀ c t, (getImageUrl o nft).2.count (.osMeta c t) ≤ 2) ∧
    (∀ u, (getImageUrl o nft).2.count (.headDirect u) ≤ 1) ∧
    (∀ u, (getImageUrl o nft).2.count (.ipfsGw u) ≤ 1) ∧
    (∀ u, (getImageUrl o nft).2.count (.headLink u) ≤ 1) := by
  have h1 := stageDirect_trace o nft
  have h2 := stageOsMeta_trace o nft
  have h4 := stageLink_trace o nft
  refine ⟨fun c t => ?_, fun u => ?_, fun u => ?_, fun u => ?_⟩
  · refine le_trans (getImageUrl_count_le o nft _) ?_
    have b1 : (stageDirect o nft).2.count (.osMeta c t) = 0 :=
      count_eq_zero_of_cases h1 (by intro h; cases h)
    have b2 : (stageOsMeta o nft).2.count (.osMeta c t) ≤ 1 :=
      count_le_one_of_cases h2 _
    have b3 : (stageIpfs o nft).2.count (.osMeta c t) = 0 :=
      stageIpfs_count_eq_zero o nft (by intro u h; cases h)
    have b4 : (stageLink o nft).2.count (.osMeta c t) ≤ 1 := by
      rcases h4 with h | h | h
      · simp [h]
      · exact count_le_one_of_cases (Or.inr h) _
      · exact count_le_one_of_cases (Or.inr h) _
    omega
  · refine le_trans (getImageUrl_count_le o nft _) ?_
    have b1 : (stageDirect o nft).2.count (.headDirect u) ≤ 1 :=
      count_le_one_of_cases h1 _
    have b2 : (stageOsMeta o nft).2.count (.headDirect u) = 0 :=
      count_eq_zero_of_cases h2 (by intro h; cases h)
    have b3 : (stageIpfs o nft).2.count (.headDirect u) = 0 :=
      stageIpfs_count_eq_zero o nft (by intro v h; cases h)
    have b4 : (stageLink o nft).2.count (.headDirect u) = 0 := by
      rcases h4 with h | h | h
      · simp [h]
      · exact count_eq_zero_of_cases (Or.inr h) (by intro h; cases h)
      · exact count_eq_zero_of_cases (Or.inr h) (by intro h; cases h)
    omega
  · refine le_trans (getImageUrl_count_le o nft _) ?_
    have b1 : (stageDirect o nft).2.count (.ipfsGw u) = 0 :=
      count_eq_zero_of_cases h1 (by intro h; cases h)
    have b2 : (stageOsMeta o nft).2.count (.ipfsGw u) = 0 :=
      count_eq_zero_of_cases h2 (by intro h; cases h)
    have b3 : (stageIpfs o nft).2.count (.ipfsGw u) ≤ 1 :=
      stageIpfs_count_le_one o nft _
    have b4 : (stageLink o nft).2.count (.ipfsGw u) = 0 := by
      rcases h4 with h | h | h
      · simp [h]
      · exact count_eq_zero_of_cases (Or.inr h) (by intro h; cases h)
      · exact count_eq_zero_of_cases (Or.inr h) (by intro h; cases h)
    omega
  · refine le_trans (getImageUrl_count_le o nft _) ?_
    have b1 : (stageDirect o nft).2.count (.headLink u) = 0 :=
      count_eq_zero_of_cases h1 (by intro h; cases h)
    have b2 : (stageOsMeta o nft).2.count (.headLink u) = 0 :=
      count_eq_zero_of_cases h2 (by intro h; cases h)
    have b3 : (stageIpfs o nft).2.count (.headLink u) = 0 :=
      stageIpfs_count_eq_zero o nft (by intro v h; cases h)
    have b4 : (stageLink o nft).2.count (.headLink u) ≤ 1 := by
      rcases h4 with h | h | h
      · simp [h]
      · exact count_le_one_of_cases (Or.inr h) _
      · exact count_le_one_of_cases (Or.inr h) _
    omega

theorem stageDirect_fst_none (o : NetOracle) (nft : NFT)
    (hm : nft.artworkTitle = "Machine" → nft.imageLink = "")
    (hfail : ∀ p, o.probe p ≠ .ok) : (stageDirect o nft).1 = none := by
  unfold stageDirect
  split
  · rename_i hlink
    split
    · rename_i hmach
      exact absurd (hm hmach) hlink
    · cases hp : o.probe (.headDirect nft.imageLink) with
      | ok => exact absurd hp (hfail _)
      | httpError => simp
      | netError => simp
  · rfl

theorem stageOsMeta_fst_none (o : NetOracle) (nft : NFT)
    (hfail : ∀ p, o.probe p ≠ .ok) : (stageOsMeta o nft).1 = none := by
  unfold stageOsMeta
  split
  · cases hp : o.probe (.osMeta nft.contractHash nft.tokenIdStart) with
    | ok => exact absurd hp (hfail _)
    | httpError => simp
    | netError => simp
  · rfl

theorem stageIpfs_fst_none (o : NetOracle) (nft : NFT)
    (hfail : ∀ p, o.probe p ≠ .ok) : (stageIpfs o nft).1 = none := by
  unfold stageIpfs
  split
  · rw [tryGateways_all_fail o _ gateways (fun g _ => hfail _)]
  · rfl

theorem stageLink_fst_none (o : NetOracle) (nft : NFT)
    (hfail : ∀ p, o.probe p ≠ .ok) : (stageLink o nft).1 = none := by
  unfold stageLink
  split
  · split
    · split
      · cases hp : o.probe (.osMeta nft.contractHash nft.tokenIdStart) with
        | ok => exact absurd hp (hfail _)
        | httpError => simp
        | netError => simp
      · rfl
    · cases hp : o.probe (.headLink nft.link) with
      | ok => exact absurd hp (hfail _)
      | httpError => simp
      | netError => simp
  · rfl

theorem getImageUrl_exhausted (o : NetOracle) (nft : NFT)
    (hm : nft.artworkTitle = "Machine" → nft.imageLink = "")
    (hfail : ∀ p, o.probe p ≠ .ok) : (getImageUrl o nft).1 = noImagePlaceholder := by
  have d1 := stageDirect_fst_none o nft hm hfail
  have d2 := stageOsMeta_fst_none o nft hfail
  have d3 := stageIpfs_fst_none o nft hfail
  have d4 := stageLink_fst_none o nft hfail
  have e12 : (andThen (stageDirect o nft) (stageOsMeta o nft)).1 = none := by
    rw [andThen_fst_none _ _ d1]; exact d2
  have e123 : (andThen (andThen (stageDirect o nft) (stageOsMeta o nft))
      (stageIpfs o nft)).1 = none := by
    rw [andThen_fst_none _ _ e12]; exact d3
  have e1234 : (andThen (andThen (andThen (stageDirect o nft) (stageOsMeta o nft))
      (stageIpfs o nft)) (stageLink o nft)).1 = none := by
    rw [andThen_fst_none _ _ e123]; exact d4
  show ((andThen (andThen (andThen (stageDirect o nft) (stageOsMeta o nft))
    (stageIpfs o nft)) (stageLink o nft)).1.getD noImagePlaceholder) = noImagePlaceholder
  rw [e1234]
  rfl

theorem tryGateways_congr (o o' : NetOracle)
    (hok : ∀ p, o.probe p = .ok ↔ o'.probe p = .ok) (hash : String) :
    ∀ gs : List String, tryGateways o hash gs = tryGateways o' hash gs := by
  intro gs
  induction gs with
  | nil => rfl
  | cons g rest ih =>
    cases h : o.probe (.ipfsGw (g ++ hash)) with
    | ok =>
      have h' : o'.probe (.ipfsGw (g ++ hash)) = .ok := (hok _).mp h
      simp [tryGateways, h, h']
    | httpError =>
      cases h' : o'.probe (.ipfsGw (g ++ hash)) with
      | ok => exact absurd ((hok _).mpr h') (by simp [h])
      | httpError => simp [tryGateways, h, h', ih]
      | netError => simp [tryGateways, h, h', ih]
    | netError =>
      cases h' : o'.probe (.ipfsGw (g ++ hash)) with
      | ok => exact absurd ((hok _).mpr h') (by simp [h])
      | httpError => simp [tryGateways, h, h', ih]
      | netError => simp [tryGateways, h, h', ih]

theorem stageDirect_congr (o o' : NetOracle) (nft : NFT)
    (hok : ∀ p, o.probe p = .ok ↔ o'.probe p = .ok) :
    stageDirect o nft = stageDirect o' nft := by
  unfold stageDirect
  split
  · split
    · rfl
    · cases h : o.probe (.headDirect nft.imageLink) with
      | ok => rw [(hok _).mp h]
      | httpError =>
        cases h' : o'.probe (.headDirect nft.imageLink) with
        | ok => exact absurd ((hok _).mpr h') (by simp [h])
        | httpError => rfl
        | netError => rfl
      | netError =>
        cases h' : o'.probe (.headDirect nft.imageLink) with
        | ok => exact absurd ((hok _).mpr h') (by simp [h])
        | httpError => rfl
        | netError => rfl
  · rfl

theorem stageOsMeta_congr (o o' : NetOracle) (nft : NFT)
    (hok : ∀ p, o.probe p = .ok ↔ o'.probe p = .ok)
    (him : o.osImage = o'.osImage) :
    stageOsMeta o nft = stageOsMeta o' nft := by
  unfold stageOsMeta
  split
  · cases h : o.probe (.osMeta nft.contractHash nft.tokenIdStart) with
    | ok => rw [(hok _).mp h, him]
    | httpError =>
      cases h' : o'.probe (.osMeta nft.contractHash nft.tokenIdStart) with
      | ok => exact absurd ((hok _).mpr h') (by simp [h])
      | httpError => rfl
      | netError => rfl
    | netError =>
      cases h' : o'.probe (.osMeta nft.contractHash nft.tokenIdStart) with
      | ok => exact absurd ((hok _).mpr h') (by simp [h])
      | httpError => rfl
      | netError => rfl
  · rfl

theorem stageIpfs_congr (o o' : NetOracle) (nft : NFT)
    (hok : ∀ p, o.probe p = .ok ↔ o'.probe p = .ok) :
    stageIpfs o nft = stageIpfs o' nft := by
  unfold stageIpfs
  split
  · exact tryGateways_congr o o' hok _ gateways
  · rfl

theorem stageLink_congr (o o' : NetOracle) (nft : NFT)
    (hok : ∀ p, o.probe p = .ok ↔ o'.probe p = .ok)
    (him : o.osImage = o'.osImage) :
    stageLink o nft = stageLink o' nft := by
  unfold stageLink
  split
  · split
    · split
      · cases h : o.probe (.osMeta nft.contractHash nft.tokenIdStart) with
        | ok => rw [(hok _).mp h, him]
        | httpError =>
          cases h' : o'.probe (.osMeta nft.contractHash nft.tokenIdStart) with
          | ok => exact absurd ((hok _).mpr h') (by simp [h])
          | httpError => rfl
          | netError => rfl
        | netError =>
          cases h' : o'.probe (.osMeta nft.contractHash nft.tokenIdStart) with
          | ok => exact absurd ((hok _).mpr h') (by simp [h])
          | httpError => rfl
          | netError => rfl
      · rfl
    · cases h : o.probe (.headLink nft.link) with
      | ok => rw [(hok _).mp h]
      | httpError =>
        cases h' : o'.probe (.headLink nft.link) with
        | ok => exact absurd ((hok _).mpr h') (by simp [h])
        | httpError => rfl
        | netError => rfl
      | netError =>
        cases h' : o'.probe (.headLink nft.link) with
        | ok => exact absurd ((hok _).mpr h') (by simp [h])
        | httpError => rfl
        | netError => rfl
  · rfl

theorem getImageUrl_congr (o o' : NetOracle) (nft : NFT)
    (hok : ∀ p, o.probe p = .ok ↔ o'.probe p = .ok)
    (him : o.osImage = o'.osImage) :
    getImageUrl o nft = getImageUrl o' nft := by
  unfold getImageUrl
  rw [stageDirect_congr o o' nft hok, stageOsMeta_congr o o' nft hok him,
    stageIpfs_congr o o' nft hok, stageLink_congr o o' nft hok him]

theorem andThen_trace_ext (a b : Option String × List Probe) :
    ∃ x, (andThen a b).2 = a.2 ++ x := by
  rcases andThen_trace a b with h | h
  · exact ⟨[], by simp [h]⟩
  · exact ⟨b.2, h⟩

theorem getImageUrl_trace_decomp (o : NetOracle) (nft : NFT) :
    ∃ x, (getImageUrl o nft).2 = (stageDirect o nft).2 ++ x := by
  obtain ⟨x1, e1⟩ := andThen_trace_ext (stageDirect o nft) (stageOsMeta o nft)
  obtain ⟨x2, e2⟩ := andThen_trace_ext (andThen (stageDirect o nft) (stageOsMeta o nft))
    (stageIpfs o nft)
  obtain ⟨x3, e3⟩ := andThen_trace_ext (andThen (andThen (stageDirect o nft)
    (stageOsMeta o nft)) (stageIpfs o nft)) (stageLink o nft)
  refine ⟨x1 ++ x2 ++ x3, ?_⟩
  show (andThen (andThen (andThen (stageDirect o nft) (stageOsMeta o nft))
    (stageIpfs o nft)) (stageLink o nft)).2 = _
  rw [e3, e2, e1]
  simp [List.append_assoc]

theorem getImageUrl_of_stageDirect_some (o : NetOracle) (nft : NFT) (u : String)
    (t : List Probe) (h : stageDirect o nft = (some u, t)) :
    getImageUrl o nft = (u, t) := by
  unfold getImageUrl
  rw [h]
  simp [andThen]

theorem stageLink_trace_unaddressable (o : NetOracle) (nft : NFT)
    (hc : nft.contractHash = "") :
    (stageLink o nft).2 = [] ∨ (stageLink o nft).2 = [.headLink nft.link] := by
  unfold stageLink
  split
  · split
    · split
      · rename_i hcond
        exact absurd hc hcond.1
      · exact Or.inl rfl
    · cases o.probe (.headLink nft.link) <;> simp
  · exact Or.inl rfl

/- Claim theorems. -/

/-- C2: for every record with a non-empty direct image URL, the resolver
attempts that source before any other candidate source, regardless of which
other fields are populated: either the record is the probe-exempt Machine
record and the direct URL is returned with no request at all, or the very
first request of the resolution pass is the HEAD probe of the direct URL. -/
theorem direct_image_link_attempted_first (o : NetOracle) (nft : NFT)
    (h : nft.imageLink ≠ "") :
    (nft.artworkTitle = "Machine" ∧ getImageUrl o nft = (nft.imageLink, [])) ∨
    (getImageUrl o nft).2.head? = some (.headDirect nft.imageLink) := by
  by_cases hm : nft.artworkTitle = "Machine"
  · left
    refine ⟨hm, ?_⟩
    apply getImageUrl_of_stageDirect_some
    unfold stageDirect
    rw [if_pos h, if_pos hm]
  · right
    have hs2 : (stageDirect o nft).2 = [.headDirect nft.imageLink] := by
      unfold stageDirect
      rw [if_pos h, if_neg hm]
      cases o.probe (.headDirect nft.imageLink) <;> simp
    obtain ⟨x, hx⟩ := getImageUrl_trace_decomp o nft
    rw [hx, hs2]
    rfl

/-- C2 witness: the theorem at the record whose only image field is a direct
link, in an environment where HEAD probes succeed. -/
theorem direct_image_link_attempted_first_witness :
    (nftDirect.artworkTitle = "Machine" ∧
      getImageUrl oracleDirectOk nftDirect = (nftDirect.imageLink, [])) ∨
    (getImageUrl oracleDirectOk nftDirect).2.head? =
      some (.headDirect nftDirect.imageLink) :=
  direct_image_link_attempted_first oracleDirectOk nftDirect (by decide)

/-- C10: the record titled Machine with a non-empty direct URL gets that URL
back with an empty request trace (no existence probe, no network request of
any kind), while every other record with a non-empty direct URL gets a HEAD
existence probe as the first request, and the direct URL is committed only
when that probe succeeds. -/
theorem machine_record_skips_probe (o : NetOracle) (nft : NFT)
    (h : nft.imageLink ≠ "") :
    (nft.artworkTitle = "Machine" → getImageUrl o nft = (nft.imageLink, [])) ∧
    (nft.artworkTitle ≠ "Machine" →
      (getImageUrl o nft).2.head? = some (.headDirect nft.imageLink) ∧
      (o.probe (.headDirect nft.imageLink) = .ok →
        getImageUrl o nft = (nft.imageLink, [.headDirect nft.imageLink]))) := by
  constructor
  · intro hm
    apply getImageUrl_of_stageDirect_some
    unfold stageDirect
    rw [if_pos h, if_pos hm]
  · intro hm
    constructor
    · have hs2 : (stageDirect o nft).2 = [.headDirect nft.imageLink] := by
        unfold stageDirect
        rw [if_pos h, if_neg hm]
        cases o.probe (.headDirect nft.imageLink) <;> simp
      obtain ⟨x, hx⟩ := getImageUrl_trace_decomp o nft
      rw [hx, hs2]
      rfl
    · intro hok
      apply getImageUrl_of_stageDirect_some
      unfold stageDirect
      rw [if_pos h, if_neg hm, hok]

/-- C10 witness: the theorem at the Machine record (no request at all) and at
an ordinary record (HEAD probe first, link used on success). -/
theorem machine_record_skips_probe_witness :
    getImageUrl oracleDirectOk nftMachine = (nftMachine.imageLink, []) ∧
    getImageUrl oracleDirectOk nftDirect =
      (nftDirect.imageLink, [.headDirect nftDirect.imageLink]) := by
  constructor
  · exact (machine_record_skips_probe oracleDirectOk nftMachine (by decide)).1 rfl
  · exact ((machine_record_skips_probe oracleDirectOk nftDirect (by decide)).2
      (by decide)).2 (by decide)

/-- C3: for a record whose contract hash and token id are both empty, image
resolution never issues the OpenSea metadata request, and the price pass
issues no marketplace call at all for that record. -/
theorem unaddressable_record_no_marketplace_calls (o : NetOracle)
    (po : PriceOracle) (nft : NFT) (hc : nft.contractHash = "")
    (ht : nft.tokenIdStart = "") :
    (∀ c t, Probe.osMeta c t ∉ (getImageUrl o nft).2) ∧
    (fetchAllPrices po [nft]).2 = [] := by
  constructor
  · intro c t hmem
    have hcount : (getImageUrl o nft).2.count (.osMeta c t) = 0 := by
      have hb := getImageUrl_count_le o nft (.osMeta c t)
      have b1 : (stageDirect o nft).2.count (.osMeta c t) = 0 :=
        count_eq_zero_of_cases (stageDirect_trace o nft) (by intro h; cases h)
      have b2 : (stageOsMeta o nft).2.count (.osMeta c t) = 0 := by
        have : (stageOsMeta o nft).2 = [] := by
          unfold stageOsMeta
          rw [if_neg]
          intro hcond
          exact hcond.1 hc
        simp [this]
      have b3 : (stageIpfs o nft).2.count (.osMeta c t) = 0 :=
        stageIpfs_count_eq_zero o nft (by intro u h; cases h)
      have b4 : (stageLink o nft).2.count (.osMeta c t) = 0 :=
        count_eq_zero_of_cases (stageLink_trace_unaddressable o nft hc)
          (by intro h; cases h)
      omega
    rw [List.count_eq_zero] at hcount
    exact hcount hmem
  · show ((if nft.contractHash ≠ "" ∧ nft.tokenIdStart ≠ "" then _ else ([], [])) :
      List (String × String) × List PriceCall).2 ++ (fetchAllPrices po []).2 = []
    rw [if_neg]
    · rfl
    · intro hcond
      exact hcond.1 hc

/-- C3 witness: the theorem at the record with no populated fields. -/
theorem unaddressable_record_no_marketplace_calls_witness :
    Probe.osMeta "0xabc" "1" ∉ (getImageUrl oracleFail nftEmpty).2 ∧
    (fetchAllPrices priceOracleOk [nftEmpty]).2 = [] :=
  ⟨(unaddressable_record_no_marketplace_calls oracleFail priceOracleOk nftEmpty
      rfl rfl).1 "0xabc" "1",
   (unaddressable_record_no_marketplace_calls oracleFail priceOracleOk nftEmpty
      rfl rfl).2⟩

/-- C6: for a market-addressable record, the Unique type routes the price
fetch to the token-specific getNFTMetadata endpoint (contract and token id)
with the Listed label, while any other type routes it to the collection
getFloorPrice endpoint (contract only) with the Floor label; the price pass
passes isUnique = (Type is Unique). -/
theorem price_query_by_type (po : PriceOracle) (c t : String) :
    (fetchOpenSeaPrice po c t true).2 = [.metadata c t] ∧
    (fetchOpenSeaPrice po c t false).2 = [.floor c] ∧
    (∀ p, po.metaOutcome c t = .ok → po.metaFloorPrice c t = some p →
      (fetchOpenSeaPrice po c t true).1 = p ++ " ETH (Listed)") ∧
    (∀ p, po.floorOutcome c = .ok → po.floorPrice c = some p →
      (fetchOpenSeaPrice po c t false).1 = p ++ " ETH (Floor)") ∧
    (∀ nft : NFT, nft.contractHash = c → nft.tokenIdStart = t →
      c ≠ "" → t ≠ "" →
      (fetchAllPrices po [nft]).2 =
        (if nft.nftType == "Unique" then [PriceCall.metadata c t]
         else [PriceCall.floor c])) := by
  refine ⟨?_, ?_, ?_, ?_, ?_⟩
  · cases h : po.metaOutcome c t <;>
      simp [fetchOpenSeaPrice, h] <;>
        cases po.metaFloorPrice c t <;> simp
  · cases h : po.floorOutcome c <;>
      simp [fetchOpenSeaPrice, h] <;>
        cases po.floorPrice c <;> simp
  · intro p hok hp
    simp [fetchOpenSeaPrice, hok, hp]
  · intro p hok hp
    simp [fetchOpenSeaPrice, hok, hp]
  · intro nft hcnft htnft hcne htne
    have hcond : nft.contractHash ≠ "" ∧ nft.tokenIdStart ≠ "" := by
      rw [hcnft, htnft]; exact ⟨hcne, htne⟩
    show ((if nft.contractHash ≠ "" ∧ nft.tokenIdStart ≠ "" then _ else ([], [])) :
      List (String × String) × List PriceCall).2 ++ (fetchAllPrices po []).2 = _
    rw [if_pos hcond, hcnft, htnft]
    cases hu : (nft.nftType == "Unique") <;> simp only [Bool.false_eq_true, if_false, if_true]
    · cases h : po.floorOutcome c <;>
        simp [fetchOpenSeaPrice, h, fetchAllPrices] <;>
          cases po.floorPrice c <;> simp
    · cases h : po.metaOutcome c t <;>
        simp [fetchOpenSeaPrice, h, fetchAllPrices] <;>
          cases po.metaFloorPrice c t <;> simp

/-- C6 witness: the theorem at a Unique record in an environment carrying
floor prices. -/
theorem price_query_by_type_witness :
    (fetchOpenSeaPrice priceOracleOk "0xdef" "9" true).1 = "2.5" ++ " ETH (Listed)" ∧
    (fetchOpenSeaPrice priceOracleOk "0xdef" "9" false).1 = "1.1" ++ " ETH (Floor)" ∧
    (fetchAllPrices priceOracleOk [nftUnique]).2 = [PriceCall.metadata "0xdef" "9"] := by
  refine ⟨?_, ?_, ?_⟩
  · exact (price_query_by_type priceOracleOk "0xdef" "9").2.2.1 "2.5" rfl rfl
  · exact (price_query_by_type priceOracleOk "0xdef" "9").2.2.2.1 "1.1" rfl rfl
  · have := (price_query_by_type priceOracleOk "0xdef" "9").2.2.2.2 nftUnique
      rfl rfl (by decide) (by decide)
    simpa using this

/-- C8: the price fetch never lets a fault escape: a thrown error during the
fetch yields the plain Error string, a received non-success response yields
the neutral Not Listed string, and in every case the caller receives one of
the four plain result strings. -/
theorem price_fetch_error_containment (po : PriceOracle) (c t : String) :
    (po.metaOutcome c t = .netError → (fetchOpenSeaPrice po c t true).1 = "Error") ∧
    (po.metaOutcome c t = .httpError →
      (fetchOpenSeaPrice po c t true).1 = "Not Listed") ∧
    (po.floorOutcome c = .netError → (fetchOpenSeaPrice po c t false).1 = "Error") ∧
    (po.floorOutcome c = .httpError →
      (fetchOpenSeaPrice po c t false).1 = "Not Listed") ∧
    (∀ u : Bool, (fetchOpenSeaPrice po c t u).1 = "Error" ∨
      (fetchOpenSeaPrice po c t u).1 = "Not Listed" ∨
      ∃ p, (fetchOpenSeaPrice po c t u).1 = p ++ " ETH (Listed)" ∨
        (fetchOpenSeaPrice po c t u).1 = p ++ " ETH (Floor)") := by
  refine ⟨?_, ?_, ?_, ?_, ?_⟩
  · intro h; simp [fetchOpenSeaPrice, h]
  · intro h; simp [fetchOpenSeaPrice, h]
  · intro h; simp [fetchOpenSeaPrice, h]
  · intro h; simp [fetchOpenSeaPrice, h]
  · intro u
    cases u
    · cases h : po.floorOutcome c with
      | ok =>
        cases hp : po.floorPrice c with
        | none => right; left; simp [fetchOpenSeaPrice, h, hp]
        | some p => right; right; exact ⟨p, Or.inr (by simp [fetchOpenSeaPrice, h, hp])⟩
      | httpError => right; left; simp [fetchOpenSeaPrice, h]
      | netError => left; simp [fetchOpenSeaPrice, h]
    · cases h : po.metaOutcome c t with
      | ok =>
        cases hp : po.metaFloorPrice c t with
        | none => right; left; simp [fetchOpenSeaPrice, h, hp]
        | some p => right; right; exact ⟨p, Or.inl (by simp [fetchOpenSeaPrice, h, hp])⟩
      | httpError => right; left; simp [fetchOpenSeaPrice, h]
      | netError => left; simp [fetchOpenSeaPrice, h]

/-- C8 witness: the theorem at a concrete record in an environment whose
metadata endpoint throws. -/
theorem price_fetch_error_containment_witness :
    (fetchOpenSeaPrice ⟨fun _ _ => .netError, fun _ _ => none,
      fun _ => .httpError, fun _ => none⟩ "0xdef" "9" true).1 = "Error" ∧
    (fetchOpenSeaPrice ⟨fun _ _ => .netError, fun _ _ => none,
      fun _ => .httpError, fun _ => none⟩ "0xdef" "9" false).1 = "Not Listed" :=
  ⟨(price_fetch_error_containment ⟨fun _ _ => .netError, fun _ _ => none,
      fun _ => .httpError, fun _ => none⟩ "0xdef" "9").1 rfl,
   (price_fetch_error_containment ⟨fun _ _ => .netError, fun _ _ => none,
      fun _ => .httpError, fun _ => none⟩ "0xdef" "9").2.2.2.1 rfl⟩

/-- C1 counterexample: with the direct-link record in an environment whose
HEAD probes succeed, the third render-failure signal still invokes
getImageUrl (three resolver calls have happened after three signals) and the
state after exactly three signals holds the freshly resolved URL, not the
terminal Image Not Available placeholder. -/
theorem third_failure_signal_still_calls_resolver :
    (runFailures oracleDirectOk nftDirect 3).1.currentSrc = "https://img/x.png" ∧
    (runFailures oracleDirectOk nftDirect 3).1.currentSrc ≠ unavailablePlaceholder ∧
    (runFailures oracleDirectOk nftDirect 3).2 = 3 ∧
    (handleError oracleDirectOk nftDirect (runFailures oracleDirectOk nftDirect 2).1).2
      = true := by
  refine ⟨by decide, by decide, by decide, by decide⟩

/-- C1 amended: each of the first maxRetries (3) render-failure signals
triggers a fresh getImageUrl resolution; the error counter and the number of
resolver calls both saturate at maxRetries, and from the fourth signal on the
component holds the terminal Image Not Available placeholder and performs no
further resolution. -/
theorem retry_ceiling_behavior (o : NetOracle) (nft : NFT) (n : Nat) :
    (runFailures o nft n).2 = min n maxRetries ∧
    (runFailures o nft n).1.errorCount = min n maxRetries ∧
    (maxRetries < n →
      (runFailures o nft n).1.currentSrc = unavailablePlaceholder) := by
  induction n with
  | zero =>
    refine ⟨rfl, rfl, ?_⟩
    intro h
    exact absurd h (by decide)
  | succ n ih =>
    obtain ⟨hc, he, hs⟩ := ih
    by_cases hlt : (runFailures o nft n).1.errorCount < maxRetries
    · have hn : n < maxRetries := by
        rw [he] at hlt
        omega
      refine ⟨?_, ?_, ?_⟩
      · show (runFailures o nft n).2
          + (if (handleError o nft (runFailures o nft n).1).2 then 1 else 0)
          = min (n + 1) maxRetries
        rw [hc]
        unfold handleError
        rw [if_pos hlt]
        simp only [if_true]
        unfold maxRetries at hn ⊢
        omega
      · show (handleError o nft (runFailures o nft n).1).1.errorCount
          = min (n + 1) maxRetries
        unfold handleError
        rw [if_pos hlt]
        show (runFailures o nft n).1.errorCount + 1 = min (n + 1) maxRetries
        rw [he]
        unfold maxRetries at hn ⊢
        omega
      · intro hgt
        unfold maxRetries at hgt hn
        omega
    · have hn : maxRetries ≤ n := by
        rw [he] at hlt
        omega
      refine ⟨?_, ?_, ?_⟩
      · show (runFailures o nft n).2
          + (if (handleError o nft (runFailures o nft n).1).2 then 1 else 0)
          = min (n + 1) maxRetries
        rw [hc]
        unfold handleError
        rw [if_neg hlt]
        simp only [Bool.false_eq_true, if_false]
        unfold maxRetries at hn ⊢
        omega
      · show (handleError o nft (runFailures o nft n).1).1.errorCount
          = min (n + 1) maxRetries
        unfold handleError
        rw [if_neg hlt]
        show (runFailures o nft n).1.errorCount = min (n + 1) maxRetries
        rw [he]
        unfold maxRetries at hn ⊢
        omega
      · intro _
        show (handleError o nft (runFailures o nft n).1).1.currentSrc
          = unavailablePlaceholder
        unfold handleError
        rw [if_neg hlt]

/-- C1 witness: the amended theorem at five failure signals: three resolver
calls in total and the terminal placeholder. -/
theorem retry_ceiling_behavior_witness :
    (runFailures oracleFail nftEmpty 5).2 = min 5 maxRetries ∧
    (runFailures oracleFail nftEmpty 5).1.currentSrc = unavailablePlaceholder :=
  ⟨(retry_ceiling_behavior oracleFail nftEmpty 5).1,
   (retry_ceiling_behavior oracleFail nftEmpty 5).2.2 (by decide)⟩

/-- C5 counterexample: under the Mint Date comparator a record with an
unparseable date compares as equal (0) to a record with a valid date in both
sort directions, so unparseable dates are not placed relative to valid dates
according to the direction (the claimed equivalent-lowest placement would
need a direction-dependent non-zero comparison here). -/
theorem unparseable_date_equal_to_valid_both_directions :
    sampleDateParse nftBadDate.mintDate = none ∧
    sampleDateParse nftGoodDate.mintDate = some 1614902400000 ∧
    catalogCompare sampleDateParse .mintDate .asc nftBadDate nftGoodDate = 0 ∧
    catalogCompare sampleDateParse .mintDate .desc nftBadDate nftGoodDate = 0 :=
  ⟨rfl, rfl, rfl, rfl⟩

/-- C5 amended: under the Mint Date comparator any comparison in which either
operand is unparseable yields 0 — two unparseable dates compare equal, as
claimed, but an unparseable date also compares equal to every valid date in
both directions, so no direction-dependent placement exists; valid pairs
compare chronologically per direction.  Under the Edt Size comparator a
non-numeric edition size is treated as the number 0, as claimed. -/
theorem sort_comparator_behavior (parse : String → Option Int) (ord : SortOrder) :
    (∀ a b : NFT, parse a.mintDate = none →
      catalogCompare parse .mintDate ord a b = 0) ∧
    (∀ a b : NFT, parse b.mintDate = none →
      catalogCompare parse .mintDate ord a b = 0) ∧
    (∀ a b : NFT, ∀ x y : Int, parse a.mintDate = some x → parse b.mintDate = some y →
      catalogCompare parse .mintDate ord a b =
        (match ord with | .asc => x - y | .desc => y - x)) ∧
    (∀ s : String, parseIntJS s = none → edtSizeNum s = 0) ∧
    (∀ a b : NFT, parseIntJS a.edtSize = none →
      catalogCompare parse .edtSize ord a b =
        (match ord with
         | .asc => 0 - edtSizeNum b.edtSize
         | .desc => edtSizeNum b.edtSize - 0)) := by
  refine ⟨?_, ?_, ?_, ?_, ?_⟩
  · intro a b ha
    show mintDateCompare parse ord a.mintDate b.mintDate = 0
    unfold mintDateCompare
    rw [ha]
  · intro a b hb
    show mintDateCompare parse ord a.mintDate b.mintDate = 0
    unfold mintDateCompare
    rw [hb]
    cases parse a.mintDate <;> rfl
  · intro a b x y hx hy
    show mintDateCompare parse ord a.mintDate b.mintDate = _
    unfold mintDateCompare
    rw [hx, hy]
  · intro s hs
    unfold edtSizeNum
    rw [hs]
    rfl
  · intro a b ha
    show edtSizeCompare ord a.edtSize b.edtSize = _
    unfold edtSizeCompare
    have hz : edtSizeNum a.edtSize = 0 := by
      unfold edtSizeNum
      rw [ha]
      rfl
    rw [hz]

/-- C5 witness: the amended theorem at the concrete record pair: valid versus
unparseable compares 0, and the non-numeric edition size abc is treated as
0. -/
theorem sort_comparator_behavior_witness :
    catalogCompare sampleDateParse .mintDate .desc nftGoodDate nftBadDate = 0 ∧
    edtSizeNum nftGoodDate.edtSize = 0 ∧
    catalogCompare sampleDateParse .edtSize .asc nftGoodDate nftBadDate
      = 0 - edtSizeNum nftBadDate.edtSize :=
  ⟨(sort_comparator_behavior sampleDateParse .desc).2.1 nftGoodDate nftBadDate rfl,
   (sort_comparator_behavior sampleDateParse .desc).2.2.2.1 nftGoodDate.edtSize rfl,
   (sort_comparator_behavior sampleDateParse .asc).2.2.2.2 nftGoodDate nftBadDate rfl⟩

/-- C9 counterexample: an upstream non-ok response to the price endpoint is
forwarded to the client as HTTP 200 with the upstream JSON body, not as the
claimed HTTP 500 with the generic error body (the price handler never
consults response.ok). -/
theorem price_proxy_forwards_upstream_http_error :
    (priceEndpoint "server-key" "0xc" "7" upstream404).2
      = ⟨200, .upstream "rate limited"⟩ ∧
    (priceEndpoint "server-key" "0xc" "7" upstream404).2.status ≠ 500 :=
  ⟨rfl, by decide⟩

/-- C9 amended: all three proxy endpoints attach the server-held API key to
the upstream request and forward a successful upstream JSON unmodified with
status 200; the events and collection-events endpoints turn both an upstream
non-ok response and a thrown fault into HTTP 500 with their generic JSON
error body, while the price endpoint forwards even a non-ok upstream response
as 200 with its body and answers 500 with the generic body only for a thrown
fault. -/
theorem proxy_endpoints_behavior (key c t : String) (q : EventsQuery)
    (cq : CollectionQuery) (env : UpstreamRequest → UpstreamResult) :
    (priceEndpoint key c t env).1.apiKey = key ∧
    (eventsEndpoint key c t q env).1.apiKey = key ∧
    (collectionEventsEndpoint key c cq env).1.apiKey = key ∧
    (∀ b, env (priceRequest key c t) = .ok b →
      (priceEndpoint key c t env).2 = ⟨200, .upstream b⟩) ∧
    (∀ st b, env (priceRequest key c t) = .httpError st b →
      (priceEndpoint key c t env).2 = ⟨200, .upstream b⟩) ∧
    (env (priceRequest key c t) = .thrown →
      (priceEndpoint key c t env).2
        = ⟨500, .errorMessage "Failed to fetch price data"⟩) ∧
    (∀ b, env (eventsRequest key c t q) = .ok b →
      (eventsEndpoint key c t q env).2 = ⟨200, .upstream b⟩) ∧
    (∀ st b, env (eventsRequest key c t q) = .httpError st b →
      (eventsEndpoint key c t q env).2
        = ⟨500, .errorMessage "Failed to fetch NFT events"⟩) ∧
    (env (eventsRequest key c t q) = .thrown →
      (eventsEndpoint key c t q env).2
        = ⟨500, .errorMessage "Failed to fetch NFT events"⟩) ∧
    (∀ b, env (collectionEventsRequest key c cq) = .ok b →
      (collectionEventsEndpoint key c cq env).2 = ⟨200, .upstream b⟩) ∧
    (∀ st b, env (collectionEventsRequest key c cq) = .httpError st b →
      (collectionEventsEndpoint key c cq env).2
        = ⟨500, .errorMessage "Failed to fetch collection events"⟩) ∧
    (env (collectionEventsRequest key c cq) = .thrown →
      (collectionEventsEndpoint key c cq env).2
        = ⟨500, .errorMessage "Failed to fetch collection events"⟩) := by
  refine ⟨rfl, rfl, rfl, ?_, ?_, ?_, ?_, ?_, ?_, ?_, ?_, ?_⟩
  · intro b h; simp [priceEndpoint, priceHandler, h]
  · intro st b h; simp [priceEndpoint, priceHandler, h]
  · intro h; simp [priceEndpoint, priceHandler, h]
  · intro b h; simp [eventsEndpoint, eventsHandler, h]
  · intro st b h; simp [eventsEndpoint, eventsHandler, h]
  · intro h; simp [eventsEndpoint, eventsHandler, h]
  · intro b h; simp [collectionEventsEndpoint, collectionEventsHandler, h]
  · intro st b h; simp [collectionEventsEndpoint, collectionEventsHandler, h]
  · intro h; simp [collectionEventsEndpoint, collectionEventsHandler, h]

/-- C9 witness: the amended theorem at a concrete key, identifiers and the
404 upstream: key attached, events endpoint answers the 500 generic body,
price endpoint forwards the body with 200. -/
theorem proxy_endpoints_behavior_witness :
    (priceEndpoint "k" "0xc" "7" upstream404).1.apiKey = "k" ∧
    (eventsEndpoint "k" "0xc" "7" ⟨none, none, none, none⟩ upstream404).2
      = ⟨500, .errorMessage "Failed to fetch NFT events"⟩ ∧
    (priceEndpoint "k" "0xc" "7" upstream404).2 = ⟨200, .upstream "rate limited"⟩ :=
  ⟨(proxy_endpoints_behavior "k" "0xc" "7" ⟨none, none, none, none⟩
      ⟨none, none, none, none, none⟩ upstream404).1,
   (proxy_endpoints_behavior "k" "0xc" "7" ⟨none, none, none, none⟩
      ⟨none, none, none, none, none⟩ upstream404).2.2.2.2.2.2.2.1 404 "rate limited" rfl,
   (proxy_endpoints_behavior "k" "0xc" "7" ⟨none, none, none, none⟩
      ⟨none, none, none, none, none⟩ upstream404).2.2.2.2.1 404 "rate limited" rfl⟩

/-- C4: for a record that reaches the IPFS source (empty direct link, empty
contract hash) with a non-empty reference, the resolver probes the configured
gateways strictly in their fixed order, stops at the first gateway whose
probe succeeds and returns gateway-base ++ cleaned-hash for it, never probes
any gateway twice within the pass, and the cleaned hash of a reference
carrying the leading ipfs:// prefix is the reference with that prefix and all
trailing slashes stripped. -/
theorem ipfs_gateway_resolution (o : NetOracle) (nft : NFT)
    (h1 : nft.imageLink = "") (h2 : nft.contractHash = "")
    (h3 : nft.ipfsImage ≠ "") :
    (∀ pre g post, gateways = pre ++ g :: post →
      (∀ g' ∈ pre, o.probe (.ipfsGw (g' ++ cleanIpfsHash nft.ipfsImage)) ≠ .ok) →
      o.probe (.ipfsGw (g ++ cleanIpfsHash nft.ipfsImage)) = .ok →
      getImageUrl o nft =
        (g ++ cleanIpfsHash nft.ipfsImage,
         (pre ++ [g]).map (fun g' => Probe.ipfsGw (g' ++ cleanIpfsHash nft.ipfsImage)))) ∧
    (getImageUrl o nft).2.Nodup ∧
    (∀ s : String, jsTrim ("ipfs://" ++ s) = "ipfs://" ++ s →
      cleanIpfsHash ("ipfs://" ++ s) = remTrailingSlashes s) ∧
    (∀ r : Nat, ∀ ref : String, ∃ g ∈ gatewaysV2,
      ipfsRandomUrl r ref = g ++ jsTrim ref) := by
  have hs1 : stageDirect o nft = (none, []) := by
    unfold stageDirect
    rw [if_neg]
    simp [h1]
  have hs2 : stageOsMeta o nft = (none, []) := by
    unfold stageOsMeta
    rw [if_neg]
    intro hcond
    exact hcond.1 h2
  have hred : getImageUrl o nft =
      ((andThen (stageIpfs o nft) (stageLink o nft)).1.getD noImagePlaceholder,
       (andThen (stageIpfs o nft) (stageLink o nft)).2) := by
    unfold getImageUrl
    rw [hs1, hs2]
    rfl
  have hs3 : stageIpfs o nft
      = tryGateways o (cleanIpfsHash nft.ipfsImage) gateways := by
    unfold stageIpfs
    rw [if_pos h3]
  refine ⟨?_, ?_, cleanIpfsHash_leading, ?_⟩
  · intro pre g post hsplit hpre hg
    have ht := tryGateways_first_success o (cleanIpfsHash nft.ipfsImage) g post hg
      pre hpre
    rw [hred, hs3, hsplit, ht]
    simp [andThen]
  · rw [hred]
    rcases andThen_trace (stageIpfs o nft) (stageLink o nft) with h | h
    · rw [h]
      exact stageIpfs_nodup o nft
    · rw [h]
      rcases stageLink_trace_unaddressable o nft h2 with h4 | h4
      · rw [h4, List.append_nil]
        exact stageIpfs_nodup o nft
      · rw [h4]
        refine List.Nodup.append (stageIpfs_nodup o nft) (by simp) ?_
        intro a ha hb
        obtain ⟨u, hu⟩ := stageIpfs_all_ipfsGw o nft a ha
        rw [List.mem_singleton] at hb
        rw [hu] at hb
        simp at hb
  · intro r ref
    have h5 : r % 5 = 0 ∨ r % 5 = 1 ∨ r % 5 = 2 ∨ r % 5 = 3 ∨ r % 5 = 4 := by omega
    show ∃ g ∈ gatewaysV2,
      gatewaysV2.getD (r % gatewaysV2.length) "" ++ jsTrim ref = g ++ jsTrim ref
    have hlen : gatewaysV2.length = 5 := rfl
    rw [hlen]
    rcases h5 with h | h | h | h | h <;> rw [h] <;>
      exact ⟨gatewaysV2.getD _ "", by decide, rfl⟩

/-- C4 witness: the theorem at the end-to-end scenario record with reference
ipfs://Qm123/, in an environment where the first configured gateway answers
ok: the result is that gateway's base followed by Qm123, after one probe. -/
theorem ipfs_gateway_resolution_witness :
    cleanIpfsHash nftIpfs.ipfsImage = "Qm123" ∧
    getImageUrl oracleFirstGw nftIpfs =
      ("https://nftstorage.link/ipfs/" ++ cleanIpfsHash nftIpfs.ipfsImage,
       ([] ++ ["https://nftstorage.link/ipfs/"]).map
         (fun g' => Probe.ipfsGw (g' ++ cleanIpfsHash nftIpfs.ipfsImage))) ∧
    cleanIpfsHash ("ipfs://" ++ "Qm123/") = remTrailingSlashes "Qm123/" := by
  have h := ipfs_gateway_resolution oracleFirstGw nftIpfs rfl rfl (by decide)
  refine ⟨by decide, ?_, h.2.2.1 "Qm123/" (by decide)⟩
  exact h.1 [] "https://nftstorage.link/ipfs/"
    ["https://ipfs.io/ipfs/", "https://gateway.pinata.cloud/ipfs/",
     "https://dweb.link/ipfs/", "https://gateway.ipfs.io/ipfs/",
     "https://cloudflare-ipfs.com/ipfs/"]
    rfl (by intro g' hg'; simp at hg') (by decide)

/-- C7 counterexample: for the record whose Link is an opensea.io/assets
image URL and which carries contract/token identifiers, a pass in which every
probe fails issues the identical OpenSea metadata request twice — the
marketplace-metadata source is retried within one resolution pass, so the
trace is not duplicate-free. -/
theorem opensea_metadata_source_probed_twice :
    (getImageUrl oracleFail nftOsLink).2
      = [.osMeta "0xabc" "1", .osMeta "0xabc" "1"] ∧
    ¬ (getImageUrl oracleFail nftOsLink).2.Nodup ∧
    (getImageUrl oracleFail nftOsLink).1 = noImagePlaceholder := by
  refine ⟨by decide, by decide, by decide⟩

/-- C7 amended: the resolver is total and error-containing — a probe that
throws and a probe that answers a non-success status are treated identically
(only success matters to the outcome), exhausting every source yields the
fixed No Image placeholder, and no request is issued twice within one pass
except the OpenSea metadata request, which can be issued a second time
through the opensea.io/assets branch of the external-link source (at most
twice in total). -/
theorem resolver_error_containment (o : NetOracle) (nft : NFT) :
    (∀ o' : NetOracle, (∀ p, o.probe p = .ok ↔ o'.probe p = .ok) →
      o.osImage = o'.osImage → getImageUrl o nft = getImageUrl o' nft) ∧
    ((nft.artworkTitle = "Machine" → nft.imageLink = "") →
      (∀ p, o.probe p ≠ .ok) → (getImageUrl o nft).1 = noImagePlaceholder) ∧
    (∀ p, (getImageUrl o nft).2.count p ≤ 2) ∧
    (∀ u, (getImageUrl o nft).2.count (.headDirect u) ≤ 1) ∧
    (∀ u, (getImageUrl o nft).2.count (.ipfsGw u) ≤ 1) ∧
    (∀ u, (getImageUrl o nft).2.count (.headLink u) ≤ 1) := by
  obtain ⟨hosm, hhd, hgw, hhl⟩ := getImageUrl_request_counts o nft
  refine ⟨?_, ?_, ?_, hhd, hgw, hhl⟩
  · intro o' hok him
    exact getImageUrl_congr o o' nft hok him
  · intro hm hfail
    exact getImageUrl_exhausted o nft hm hfail
  · intro p
    cases p with
    | headDirect u => exact le_trans (hhd u) (by omega)
    | osMeta c t => exact hosm c t
    | ipfsGw u => exact le_trans (hgw u) (by omega)
    | headLink u => exact le_trans (hhl u) (by omega)

/-- C7 witness: the amended theorem at the duplicate-probe record in the
all-failing environment: the placeholder comes back and the duplicated
metadata request stays within its bound of two. -/
theorem resolver_error_containment_witness :
    (getImageUrl oracleFail nftOsLink).1 = noImagePlaceholder ∧
    (getImageUrl oracleFail nftOsLink).2.count (.osMeta "0xabc" "1") ≤ 2 :=
  ⟨(resolver_error_containment oracleFail nftOsLink).2.1 (by decide)
      (fun p h => by simp [oracleFail] at h),
   (resolver_error_containment oracleFail nftOsLink).2.2.1 (.osMeta "0xabc" "1")⟩

end Catalog
